import Mathlib

/-!
Shallow embedding of the memz-veloren cognitive memory engine
(crate `memz-core`) and proofs about its specification claims.

Modelling conventions:
* `f32`/`f64` values are modelled as exact rationals (`ℚ`); the game
  arithmetic of the claims involves only ring operations, comparisons
  and clamping, which the rational model reproduces exactly.
* The transcendental library calls (`exp`, `log2`, `sqrt`) are taken as
  explicit function parameters (`fexp`, `flog2`, `fsqrt`); every theorem
  below holds for an arbitrary interpretation of these functions unless
  a hypothesis (such as `fexp 0 = 1`) is stated.
* `u64` ticks are `ℕ`; Rust `saturating_sub` is `ℕ` subtraction.
* `Uuid`-based identifiers (`EntityId`, `MemoryId`, `SettlementId`) are
  modelled as `ℕ`; the fresh random id drawn by `MemoryId::new()` inside
  a constructor is an explicit first parameter of the embedded
  constructor.
* `GameTimestamp` carries a wall-clock field only as save metadata; all
  computations use `tick`, so timestamps are modelled by their tick.
-/

namespace Memz

/-- Rust `f.clamp(lo, hi)` on rationals (for `lo ≤ hi`, no NaN). -/
def clampQ (x lo hi : ℚ) : ℚ := min (max x lo) hi

/-- PAD emotional state (`types.rs`, struct `PADState`). -/
structure PADState where
  pleasure : ℚ
  arousal : ℚ
  dominance : ℚ
deriving Repr, DecidableEq

/-- Neutral PAD state (`PADState::NEUTRAL`, also the `Default` impl). -/
def PADState.NEUTRAL : PADState := ⟨0, 0, 0⟩

/-- Constructor `PADState::new`, clamping each axis to `[-1, 1]`. -/
def PADState.new (pleasure arousal dominance : ℚ) : PADState :=
  ⟨clampQ pleasure (-1) 1, clampQ arousal (-1) 1, clampQ dominance (-1) 1⟩

/-- Big-five-inspired personality traits (`types.rs`). -/
structure PersonalityTraits where
  credulity : ℚ
  openness : ℚ
  gossip_tendency : ℚ
  emotional_volatility : ℚ
  bravery : ℚ
deriving Repr, DecidableEq

/-- A 3D world position (`types.rs`, struct `Location`). -/
structure Location where
  x : ℚ
  y : ℚ
  z : ℚ
deriving Repr, DecidableEq

/-- `Location::default()` — the origin. -/
def Location.default : Location := ⟨0, 0, 0⟩

/-- A dense embedding vector (`types.rs`, struct `Embedding(Vec<f32>)`). -/
abbrev Embedding := List ℚ

/-- Episodic memory record (`memory/episodic.rs`). -/
structure EpisodicMemory where
  id : ℕ
  event : String
  participants : List ℕ
  location : Location
  timestamp : ℕ
  emotional_valence : ℚ
  importance : ℚ
  decay_rate : ℚ
  strength : ℚ
  access_count : ℕ
  last_accessed : ℕ
  is_first_meeting : Bool
  embedding : Option Embedding
deriving Repr, DecidableEq

/-- Constructor `EpisodicMemory::new` (fresh id passed explicitly):
clamps valence to `[-1,1]`, importance to `[0,1]`, derives the base
decay rate and starts at full strength. -/
def EpisodicMemory.new (id : ℕ) (event : String) (participants : List ℕ)
    (location : Location) (timestamp : ℕ)
    (emotional_valence importance : ℚ) : EpisodicMemory :=
  let ev := clampQ emotional_valence (-1) 1
  let imp := clampQ importance 0 1
  let base_decay : ℚ := 0.05
  let decay_rate := base_decay * (1 - imp * 0.5) * (1 - |ev| * 0.3)
  { id := id
    event := event
    participants := participants
    location := location
    timestamp := timestamp
    emotional_valence := ev
    importance := imp
    decay_rate := decay_rate
    strength := 1
    access_count := 0
    last_accessed := timestamp
    is_first_meeting := false
    embedding := none }

/-- `EpisodicMemory::with_first_meeting`. -/
def EpisodicMemory.with_first_meeting (m : EpisodicMemory) : EpisodicMemory :=
  { m with is_first_meeting := true }

/-- Semantic memory record (`memory/semantic.rs`). -/
structure SemanticMemory where
  id : ℕ
  fact : String
  confidence : ℚ
  derived_from : List ℕ
  category : String
  last_reinforced : ℕ
  created_at : ℕ
  embedding : Option Embedding
deriving Repr, DecidableEq

/-- Emotional memory trajectory (`memory/emotional.rs`). -/
inductive EmotionTrajectory where
  | Increasing
  | Stable
  | Decreasing
deriving Repr, DecidableEq

/-- Emotional memory record (`memory/emotional.rs`). -/
structure EmotionalMemory where
  id : ℕ
  target : ℕ
  emotion : String
  intensity : ℚ
  pad_state : PADState
  trajectory : EmotionTrajectory
  basis : List ℕ
  last_updated : ℕ
deriving Repr, DecidableEq

/-- Constructor `EmotionalMemory::new` (fresh id passed explicitly):
clamps intensity to `[0,1]` and starts with a `Stable` trajectory. -/
def EmotionalMemory.new (id : ℕ) (target : ℕ) (emotion : String)
    (intensity : ℚ) (pad_state : PADState) (basis : List ℕ)
    (timestamp : ℕ) : EmotionalMemory :=
  { id := id
    target := target
    emotion := emotion
    intensity := clampQ intensity 0 1
    pad_state := pad_state
    trajectory := .Stable
    basis := basis
    last_updated := timestamp }

/-- Social memory record (`memory/social.rs`). -/
structure SocialMemory where
  id : ℕ
  about : ℕ
  source : ℕ
  claim : String
  believed : Bool
  disbelief_reason : Option String
  trust_in_source : ℚ
  propagation_depth : ℕ
  received_at : ℕ
  sentiment : ℚ
deriving Repr, DecidableEq

/-- Constructor `SocialMemory::new` (fresh id passed explicitly):
`believed` defaults naively to `trust_in_source > 0.5`, the stored
trust is clamped to `[0,1]`, and the sentiment starts at `0.0`. -/
def SocialMemory.new (id : ℕ) (about source : ℕ) (claim : String)
    (trust_in_source : ℚ) (propagation_depth : ℕ)
    (timestamp : ℕ) : SocialMemory :=
  { id := id
    about := about
    source := source
    claim := claim
    believed := decide (trust_in_source > 0.5)
    disbelief_reason := none
    trust_in_source := clampQ trust_in_source 0 1
    propagation_depth := propagation_depth
    received_at := timestamp
    sentiment := 0 }

/-- `SocialMemory::chain_reliability`. -/
def SocialMemory.chain_reliability (m : SocialMemory) : ℚ :=
  1 / (1 + (m.propagation_depth : ℚ))

/-- Modelled from the spec: the source file `memory/reflective.rs` is
declared in `memory/mod.rs` but absent from the sources; §3 of the spec
lists a reflective memory as insight text, confidence in `[0,1]`, source
memories and a generation timestamp. Only `confidence` and
`generated_at` are consumed by the retrieval scoring in scope here. -/
structure ReflectiveMemory where
  id : ℕ
  insight : String
  confidence : ℚ
  source_memories : List ℕ
  generated_at : ℕ
deriving Repr, DecidableEq

/-- Procedural memory record (`memory/procedural.rs`). -/
structure ProceduralMemory where
  id : ℕ
  skill : String
  proficiency : ℚ
  repetitions : ℕ
  last_practiced : ℕ
  learning_rate : ℚ
  related_skills : List ℕ
  routine_description : String
deriving Repr, DecidableEq

/-- Priority of an injected memory (spec §3: `{Low, Normal, High}`). -/
inductive InjectedPriority where
  | Low
  | Normal
  | High
deriving Repr, DecidableEq

/-- Modelled from the spec: the source file `memory/injected.rs` is
declared in `memory/mod.rs` but absent from the sources; §3 of the spec
lists an injected memory as content text, emotional weight, timestamp,
priority, known NPCs, a first-five-minutes flag and an optional
embedding. Retrieval scoring consumes `memory_timestamp`, `embedding`,
`emotional_weight` and `importance()`. -/
structure InjectedMemory where
  id : ℕ
  content : String
  emotional_weight : ℚ
  memory_timestamp : ℕ
  priority : InjectedPriority
  known_to_npcs : List ℕ
  is_first_five_minutes : Bool
  embedding : Option Embedding
deriving Repr, DecidableEq

/-- Modelled from the spec: `InjectedMemory::importance()` is named by
the spec's retrieval table but its numeric mapping from `priority` is
not given; a fixed monotone mapping is chosen. No theorem below depends
on the particular values. -/
def InjectedMemory.importance (m : InjectedMemory) : ℚ :=
  match m.priority with
  | .Low => 0.3
  | .Normal => 0.5
  | .High => 0.8

/-- Tagged union over the seven memory variants (`memory/mod.rs`,
enum `MemoryEntry`). -/
inductive MemoryEntry where
  | Episodic (m : EpisodicMemory)
  | Semantic (m : SemanticMemory)
  | Emotional (m : EmotionalMemory)
  | Social (m : SocialMemory)
  | Reflective (m : ReflectiveMemory)
  | Procedural (m : ProceduralMemory)
  | Injected (m : InjectedMemory)
deriving Repr, DecidableEq

/-- Per-character aggregate of all memory variants (`memory/mod.rs`,
struct `MemoryBank`). -/
structure MemoryBank where
  episodic : List EpisodicMemory
  semantic : List SemanticMemory
  emotional : List EmotionalMemory
  social : List SocialMemory
  reflective : List ReflectiveMemory
  procedural : List ProceduralMemory
  injected : List InjectedMemory
deriving Repr, DecidableEq

/-- `MemoryBank::new()` — the empty bank (`Default`). -/
def MemoryBank.new : MemoryBank := ⟨[], [], [], [], [], [], []⟩

/-! ### Configuration (`config.rs`) -/

/-- Per-character memory configuration (`config.rs`, fields consumed by
the decay pass). -/
structure MemoryConfig where
  max_episodic_per_npc : ℕ
  max_semantic_per_npc : ℕ
  max_social_per_npc : ℕ
  max_procedural_per_npc : ℕ
  max_reflective_per_npc : ℕ
  decay_rate : ℚ
deriving Repr, DecidableEq

/-- `MemoryConfig::default()`. -/
def MemoryConfig.default : MemoryConfig :=
  { max_episodic_per_npc := 200
    max_semantic_per_npc := 50
    max_social_per_npc := 100
    max_procedural_per_npc := 30
    max_reflective_per_npc := 20
    decay_rate := 0.05 }

/-- Multi-tier eviction ring configuration (`config.rs`). -/
structure EvictionConfig where
  hot_ring_hours : ℕ
  warm_ring_days : ℕ
  cold_ring_days : ℕ
  protect_emotional_threshold : ℚ
  protect_first_meeting : Bool
deriving Repr, DecidableEq

/-- `EvictionConfig::default()`. -/
def EvictionConfig.default : EvictionConfig :=
  { hot_ring_hours := 24
    warm_ring_days := 7
    cold_ring_days := 90
    protect_emotional_threshold := 0.8
    protect_first_meeting := true }

/-- Retrieval scoring weights (`config.rs`, struct `RetrievalWeights`). -/
structure RetrievalWeights where
  recency : ℚ
  relevance : ℚ
  importance : ℚ
  emotional : ℚ
  social : ℚ
deriving Repr, DecidableEq

/-- `RetrievalWeights::default()` — `(0.20, 0.30, 0.20, 0.20, 0.10)`. -/
def RetrievalWeights.default : RetrievalWeights :=
  ⟨0.20, 0.30, 0.20, 0.20, 0.10⟩

/-- Retrieval configuration (`config.rs`, the fields consumed by
`RetrievalEngine::retrieve`). -/
structure RetrievalConfig where
  top_k : ℕ
  embedding_dimensions : ℕ
  weights : RetrievalWeights
deriving Repr, DecidableEq

/-- `RetrievalConfig::default()` (its retrieval-relevant fields). -/
def RetrievalConfig.default : RetrievalConfig :=
  ⟨5, 384, RetrievalWeights.default⟩

/-! ### Decay engine (`decay.rs`)

The library calls `f64::exp` and `f64::log2` are abstracted as the
function parameters `fexp` and `flog2`. -/

/-- Core Ebbinghaus curve (`decay.rs`, fn `ebbinghaus`):
`R = fexp (-t / S)`, and `0` when the strength is non-positive. -/
def ebbinghaus (fexp : ℚ → ℚ) (delta_days strength : ℚ) : ℚ :=
  if strength ≤ 0 then 0 else fexp (-delta_days / strength)

/-- Memory strength (`decay.rs`, fn `memory_strength`):
`S = 10 × (1 + importance) × (1 + emotional_intensity) ×
max(flog2 (1 + access_count), 1) × (1.5 if first meeting)`. -/
def memory_strength (flog2 : ℚ → ℚ) (importance emotional_intensity : ℚ)
    (access_count : ℕ) (is_first_meeting : Bool) : ℚ :=
  let base : ℚ := 10
  let importance_factor := 1 + importance
  let emotional_factor := 1 + emotional_intensity
  let rehearsal_factor := max (flog2 (1 + (access_count : ℚ))) 1
  let first_meeting_bonus : ℚ := if is_first_meeting then 1.5 else 1
  base * importance_factor * emotional_factor * rehearsal_factor *
    first_meeting_bonus

/-- Retention of an episodic memory (`decay.rs`, fn
`episodic_retention`); the tick delta saturates at zero. -/
def episodic_retention (fexp flog2 : ℚ → ℚ) (memory : EpisodicMemory)
    (current_time : ℕ) : ℚ :=
  let delta_ticks := current_time - memory.timestamp
  let delta_days := (delta_ticks : ℚ) / 72000
  let strength := memory_strength flog2 memory.importance
    |memory.emotional_valence| memory.access_count memory.is_first_meeting
  ebbinghaus fexp delta_days strength

/-- Retention of a social memory (`decay.rs`, fn `social_retention`). -/
def social_retention (fexp : ℚ → ℚ) (memory : SocialMemory)
    (current_time : ℕ) : ℚ :=
  let delta_ticks := current_time - memory.received_at
  let delta_days := (delta_ticks : ℚ) / 72000
  let trust_factor := memory.trust_in_source
  let chain_penalty := 1 / (1 + (memory.propagation_depth : ℚ))
  let strength := trust_factor * chain_penalty * 10
  ebbinghaus fexp delta_days strength

/-- Decay pass over episodic memories (`decay.rs`, fn
`decay_episodic_memories`): `Vec::retain` keeps first-meeting memories,
flashbulb memories (`|valence| > 0.8`) and memories whose retention
stays strictly above the threshold, preserving order. -/
def decay_episodic_memories (fexp flog2 : ℚ → ℚ)
    (memories : List EpisodicMemory) (current_time : ℕ)
    (config : MemoryConfig) : List EpisodicMemory :=
  let threshold := config.decay_rate
  memories.filter fun memory =>
    memory.is_first_meeting ||
    decide (|memory.emotional_valence| > 0.8) ||
    decide (episodic_retention fexp flog2 memory current_time > threshold)

/-- Decay pass over social memories (`decay.rs`, fn
`decay_social_memories`). -/
def decay_social_memories (fexp : ℚ → ℚ) (memories : List SocialMemory)
    (current_time : ℕ) (threshold : ℚ) : List SocialMemory :=
  memories.filter fun memory =>
    decide (social_retention fexp memory current_time > threshold)

/-! ### Eviction ring (`eviction.rs`) -/

/-- Eviction ring tiers (`eviction.rs`, enum `Ring`). -/
inductive Ring where
  | Hot
  | Warm
  | Cold
  | Archive
deriving Repr, DecidableEq

/-- Ring classification by age (`eviction.rs`, fn `classify_ring`);
integer division converts ticks to game-hours, and a memory newer than
the current tick is guarded to `Hot`. -/
def classify_ring (memory_tick current_tick ticks_per_hour : ℕ)
    (config : EvictionConfig) : Ring :=
  if current_tick < memory_tick then .Hot
  else
    let age_ticks := current_tick - memory_tick
    let age_hours := if ticks_per_hour = 0 then 0
                     else age_ticks / ticks_per_hour
    let hot_limit := config.hot_ring_hours
    let warm_limit := config.warm_ring_days * 24
    let cold_limit := config.cold_ring_days * 24
    if age_hours < hot_limit then .Hot
    else if age_hours < warm_limit then .Warm
    else if age_hours < cold_limit then .Cold
    else .Archive

/-- The rational standing in for `f64::MAX` `= (2^53 − 1)·2^971`,
returned by `eviction_score` for protected memories. -/
def f64MAX : ℚ := (2 ^ 53 - 1) * 2 ^ 971

/-- Eviction priority score (`eviction.rs`, fn `eviction_score`); lower
scores are evicted first and protected memories return `f64::MAX`. -/
def eviction_score (importance emotional_valence : ℚ)
    (is_first_meeting : Bool) (ticks_since_last_access : ℕ)
    (config : EvictionConfig) : ℚ :=
  if is_first_meeting && config.protect_first_meeting then f64MAX
  else if |emotional_valence| > config.protect_emotional_threshold then
    f64MAX
  else
    let access_factor : ℚ :=
      if ticks_since_last_access = 0 then 1
      else 1 / (ticks_since_last_access : ℚ)
    let emotional_weight := 1 + |emotional_valence|
    importance * emotional_weight * access_factor

/-- Result of an eviction pass (`eviction.rs`, struct
`EvictionResult`). -/
structure EvictionResult where
  retained : List EpisodicMemory
  to_cold_storage : List EpisodicMemory
  to_archive : List EpisodicMemory
deriving Repr, DecidableEq

/-- Whether a ring is kept in memory by the episodic eviction pass. -/
def Ring.keptInMemory : Ring → Bool
  | .Hot => true
  | .Warm => true
  | .Cold => false
  | .Archive => false

/-- Eviction pass over episodic memories (`eviction.rs`, fn
`evict_episodic_memories`). The partition loop is rendered as three
order-preserving filters; the capacity spill scores the retained set,
sorts it descending by score with a stable sort (Rust `sort_by` with
`b.partial_cmp(a)`) and keeps the first `max_in_memory` entries,
spilling the rest to cold storage. -/
def evict_episodic_memories (memories : List EpisodicMemory)
    (current_tick ticks_per_hour : ℕ) (max_in_memory : ℕ)
    (config : EvictionConfig) : EvictionResult :=
  let ringOf := fun (m : EpisodicMemory) =>
    classify_ring m.timestamp current_tick ticks_per_hour config
  let retained0 := memories.filter fun m => (ringOf m).keptInMemory
  let cold0 := memories.filter fun m => ringOf m = .Cold
  let archive0 := memories.filter fun m => ringOf m = .Archive
  if retained0.length > max_in_memory then
    let scored := retained0.map fun m =>
      (eviction_score m.importance m.emotional_valence m.is_first_meeting
        (current_tick - m.last_accessed) config, m)
    let sorted := scored.mergeSort fun a b => decide (b.1 ≤ a.1)
    { retained := (sorted.take max_in_memory).map Prod.snd
      to_cold_storage := cold0 ++ (sorted.drop max_in_memory).map Prod.snd
      to_archive := archive0 }
  else
    { retained := retained0
      to_cold_storage := cold0
      to_archive := archive0 }

/-! ### Retrieval engine (`retrieval/mod.rs`, `retrieval/scoring.rs`)

The `f64::exp` of the recency factor and the `f32::sqrt` inside cosine
similarity are abstracted as the parameters `fexp` and `fsqrt`. -/

/-- The `f32::EPSILON` guard used by `Embedding::cosine_similarity`. -/
def f32EPSILON : ℚ := 1 / 2 ^ 23

/-- Cosine similarity (`types.rs`, `Embedding::cosine_similarity`):
zero on dimension mismatch, empty vectors, or a near-zero norm
product. -/
def cosine_similarity (fsqrt : ℚ → ℚ) (a b : Embedding) : ℚ :=
  if a.length ≠ b.length ∨ a.length = 0 then 0
  else
    let dot := ((a.zip b).map fun p => p.1 * p.2).sum
    let norm_a := (a.map fun x => x * x).sum
    let norm_b := (b.map fun x => x * x).sum
    let denom := fsqrt norm_a * fsqrt norm_b
    if denom < f32EPSILON then 0 else dot / denom

/-- Default Ebbinghaus decay constant λ (`retrieval/scoring.rs`). -/
def DEFAULT_DECAY_LAMBDA : ℚ := 0.05

/-- Recency factor (`retrieval/scoring.rs`, fn `recency_score`):
`fexp (-λ·Δdays)` on the variant-specific timestamp; semantic and
emotional memories return the constant `0.8`. -/
def recency_score (fexp : ℚ → ℚ) (memory : MemoryEntry)
    (current_time : ℕ) : ℚ :=
  let fromTick := fun (t : ℕ) =>
    let delta_ticks := current_time - t
    let delta_days := (delta_ticks : ℚ) / 72000
    fexp (-DEFAULT_DECAY_LAMBDA * delta_days)
  match memory with
  | .Episodic m => fromTick m.timestamp
  | .Social m => fromTick m.received_at
  | .Reflective m => fromTick m.generated_at
  | .Procedural m => fromTick m.last_practiced
  | .Injected m => fromTick m.memory_timestamp
  | .Semantic _ => 0.8
  | .Emotional _ => 0.8

/-- Relevance factor (`retrieval/scoring.rs`, fn `relevance_score`):
cosine similarity floored at `0` when an embedding exists, neutral
`0.5` otherwise. -/
def relevance_score (fsqrt : ℚ → ℚ) (memory : MemoryEntry)
    (context_embedding : Embedding) : ℚ :=
  let memory_embedding : Option Embedding :=
    match memory with
    | .Episodic m => m.embedding
    | .Semantic m => m.embedding
    | .Injected m => m.embedding
    | .Social _ => none
    | .Emotional _ => none
    | .Reflective _ => none
    | .Procedural _ => none
  match memory_embedding with
  | some emb => max (cosine_similarity fsqrt context_embedding emb) 0
  | none => 0.5

/-- Importance factor (`retrieval/scoring.rs`, fn `importance_score`). -/
def importance_score (memory : MemoryEntry) : ℚ :=
  let raw : ℚ :=
    match memory with
    | .Episodic m => m.importance
    | .Semantic m => m.confidence
    | .Emotional m => m.intensity
    | .Social _ => 0.5
    | .Reflective m => m.confidence
    | .Procedural m => m.proficiency
    | .Injected m => m.importance
  clampQ raw 0 1

/-- Emotional factor (`retrieval/scoring.rs`, fn `emotional_score`). -/
def emotional_score (memory : MemoryEntry) : ℚ :=
  match memory with
  | .Episodic m => |m.emotional_valence|
  | .Emotional m => m.intensity
  | .Injected m => m.emotional_weight
  | _ => 0.1

/-- Social factor (`retrieval/scoring.rs`, fn `social_score`). -/
def social_score (memory : MemoryEntry) : ℚ :=
  match memory with
  | .Social m => m.trust_in_source * m.chain_reliability
  | _ => 0

/-- Per-factor score contributions (`retrieval/mod.rs`, struct
`ScoreBreakdown`). -/
structure ScoreBreakdown where
  recency : ℚ
  relevance : ℚ
  importance : ℚ
  emotional : ℚ
  social : ℚ
deriving Repr, DecidableEq

/-- Full weighted breakdown (`retrieval/scoring.rs`, fn
`compute_breakdown`). -/
def compute_breakdown (fexp fsqrt : ℚ → ℚ) (memory : MemoryEntry)
    (context_embedding : Embedding) (current_time : ℕ)
    (w_recency w_relevance w_importance w_emotional w_social : ℚ) :
    ScoreBreakdown :=
  { recency := w_recency * recency_score fexp memory current_time
    relevance := w_relevance * relevance_score fsqrt memory context_embedding
    importance := w_importance * importance_score memory
    emotional := w_emotional * emotional_score memory
    social := w_social * social_score memory }

/-- A scored retrieval result (`retrieval/mod.rs`). -/
structure RetrievalResult where
  memory : MemoryEntry
  score : ℚ
  breakdown : ScoreBreakdown
deriving Repr, DecidableEq

/-- Optional per-personality weight overrides (`retrieval/mod.rs`,
struct `PersonalityWeightOverrides`). -/
structure PersonalityWeightOverrides where
  recency_mult : ℚ
  relevance_mult : ℚ
  importance_mult : ℚ
  emotional_mult : ℚ
  social_mult : ℚ
deriving Repr, DecidableEq

/-- `PersonalityWeightOverrides::default()` — all multipliers `1.0`. -/
def PersonalityWeightOverrides.default : PersonalityWeightOverrides :=
  ⟨1, 1, 1, 1, 1⟩

/-- `RetrievalEngine::retrieve` (`retrieval/mod.rs`). The source takes
the overrides as `_personality_weights` and never reads them; the
binder name mirrors the source. The source wraps the vector in a
`Result` that is always `Ok`, rendered here as a plain list. Scores
every candidate with the configured weights, sorts descending by total
score (stable `sort_by` with `b.partial_cmp(a)`) and truncates to
`top_k`. -/
def RetrievalEngine.retrieve (fexp fsqrt : ℚ → ℚ)
    (config : RetrievalConfig) (context_embedding : Embedding)
    (memories : List MemoryEntry) (current_time : ℕ)
    (_personality_weights : Option PersonalityWeightOverrides) :
    List RetrievalResult :=
  let weights := config.weights
  let top_k := config.top_k
  let results := memories.map fun memory =>
    let breakdown := compute_breakdown fexp fsqrt memory context_embedding
      current_time weights.recency weights.relevance weights.importance
      weights.emotional weights.social
    let score := breakdown.recency + breakdown.relevance +
      breakdown.importance + breakdown.emotional + breakdown.social
    RetrievalResult.mk memory score breakdown
  let sorted := results.mergeSort fun a b => decide (b.score ≤ a.score)
  sorted.take top_k

/-! ### Social propagation (`social.rs`)

The `f32::exp` of the freshness factor is abstracted as `fexp`; the
fresh `MemoryId` drawn for an accepted memory is the explicit parameter
`newId`. -/

/-- Result of a propagation attempt (`social.rs`, enum
`PropagationResult`). The `Rejected` reason string is carried without
the source's numeric formatting of the belief value. -/
inductive PropagationResult where
  | Accepted (new_memory : SocialMemory) (belief_strength : ℚ)
  | Rejected (reason : String)
  | Uncertain (will_investigate : Bool)
deriving Repr, DecidableEq

/-- `BELIEF_THRESHOLD` (`social.rs`). -/
def BELIEF_THRESHOLD : ℚ := 0.5

/-- `HYSTERESIS` (`social.rs`). -/
def HYSTERESIS : ℚ := 0.05

/-- The belief score computed by steps 1–8 of `propagate_memory`
(`social.rs`); factored out of the decision so the theorems can name
it. `propagate_memory` below composes with it exactly as the source
does inline. -/
def propagation_belief (fexp : ℚ → ℚ) (claim : SocialMemory)
    (receiver_personality : PersonalityTraits) (trust_in_source : ℚ)
    (has_direct_experience : Bool) (direct_sentiment : Option ℚ)
    (existing_belief_consistency : ℚ)
    (receiver_emotional_state_toward_subject : ℚ)
    (source_reliability : ℚ) (current_time : ℕ) : ℚ :=
  let prior_weight : ℚ := if has_direct_experience then 0.8 else 0
  let hearsay_weight : ℚ := if has_direct_experience then 0.2 else 1
  let direct_evidence := clampQ (direct_sentiment.getD 0) 0 1
  let credibility := trust_in_source * 0.6 + source_reliability * 0.4
  let consistency := existing_belief_consistency
  let personality_bias := receiver_personality.credulity
  let openness := receiver_personality.openness
  let emotional_bias : ℚ :=
    if receiver_emotional_state_toward_subject > 0.5 then -0.1
    else if receiver_emotional_state_toward_subject < -0.5 then 0.1
    else 0
  let days_since_claim := ((current_time - claim.received_at : ℕ) : ℚ) / 72000
  let freshness := fexp (-0.1 * days_since_claim)
  let chain_discount := 1 / (1 + (claim.propagation_depth : ℚ))
  clampQ (prior_weight * direct_evidence +
    hearsay_weight * credibility * consistency * freshness * chain_discount +
    personality_bias * openness * 0.15 +
    emotional_bias) 0 1

/-- Belief update and three-way decision (`social.rs`, fn
`propagate_memory`): accept above `0.55` creating a new social memory
with depth `+1` and the original source, reject below `0.45`, and stay
uncertain in the hysteresis band, investigating iff `openness > 0.5`. -/
def propagate_memory (fexp : ℚ → ℚ) (newId : ℕ) (claim : SocialMemory)
    (receiver_personality : PersonalityTraits) (trust_in_source : ℚ)
    (has_direct_experience : Bool) (direct_sentiment : Option ℚ)
    (existing_belief_consistency : ℚ)
    (receiver_emotional_state_toward_subject : ℚ)
    (source_reliability : ℚ) (current_time : ℕ) : PropagationResult :=
  let belief := propagation_belief fexp claim receiver_personality
    trust_in_source has_direct_experience direct_sentiment
    existing_belief_consistency receiver_emotional_state_toward_subject
    source_reliability current_time
  if belief > BELIEF_THRESHOLD + HYSTERESIS then
    .Accepted
      (SocialMemory.new newId claim.about claim.source claim.claim
        trust_in_source (claim.propagation_depth + 1) current_time)
      belief
  else if belief < BELIEF_THRESHOLD - HYSTERESIS then
    .Rejected "Belief score too low"
  else
    .Uncertain (decide (receiver_personality.openness > 0.5))

/-- `MAX_CHAIN_DEPTH` (`social.rs`). -/
def MAX_CHAIN_DEPTH : ℕ := 4

/-- Chain-cap eligibility (`social.rs`, fn `is_propagatable`). -/
def is_propagatable (memory : SocialMemory) : Bool :=
  decide (memory.propagation_depth < MAX_CHAIN_DEPTH) &&
  decide (memory.trust_in_source > 0.1)

/-! ### Observation pipeline (`observation.rs`)

The fresh `MemoryId`s of the created episodic and emotional memories
are the explicit parameters `epId` and `emId`; the mutated bank is
returned alongside the `ObservationResult`. -/

/-- Event classification (`observation.rs`, enum `EventKind`). -/
inductive EventKind where
  | FirstMeeting
  | Dialogue
  | Combat
  | Trade
  | Help
  | Harm
  | Arrival
  | Quest
  | Death
  | Witness
  | Custom
deriving Repr, DecidableEq

/-- An observed game event (`observation.rs`, struct `ObservedEvent`). -/
structure ObservedEvent where
  kind : EventKind
  description : String
  participants : List ℕ
  witnesses : List ℕ
  location : Location
  timestamp : ℕ
  emotional_valence : ℚ
  importance : ℚ
  pad_shift : Option PADState
deriving Repr, DecidableEq

/-- Result of processing an observed event (`observation.rs`, struct
`ObservationResult`). -/
structure ObservationResult where
  episodic_created : ℕ
  emotional_created : ℕ
  is_first_meeting : Bool
  should_trigger_reflection : Bool
  should_trigger_gossip : Bool
deriving Repr, DecidableEq

/-- First-meeting detection (`observation.rs`, fn
`detect_first_meeting`). -/
def detect_first_meeting (participants : List ℕ) (observer : ℕ)
    (known_entities : List ℕ) : Bool :=
  participants.any fun p => p ≠ observer && !(known_entities.contains p)

/-- Primary target extraction (`observation.rs`, fn `primary_target`):
the first participant different from the observer. -/
def primary_target (participants : List ℕ) (observer : ℕ) : Option ℕ :=
  participants.find? fun p => p ≠ observer

/-- Emotion label classification (`observation.rs`, fn
`classify_emotion`). -/
def classify_emotion (valence : ℚ) (kind : EventKind) : String :=
  match kind with
  | .Combat => if valence > 0 then "pride" else "fear"
  | .Help => "gratitude"
  | .Harm => "anger"
  | .Death => "grief"
  | .Trade => if valence > 0 then "satisfaction" else "resentment"
  | .FirstMeeting => "curiosity"
  | _ =>
    if valence > 0.3 then "joy"
    else if valence < -0.3 then "sadness"
    else "surprise"

/-- The observation pipeline (`observation.rs`, fn `observe`): detects
first meetings, appends one episodic memory (importance floored at
`0.7` and flag set for first meetings), appends one emotional memory
for high-valence events that have a primary target, and sets the
secondary triggers. -/
def observe (epId emId : ℕ) (event : ObservedEvent) (observer : ℕ)
    (bank : MemoryBank) (known_entities : List ℕ) :
    MemoryBank × ObservationResult :=
  let is_first_meeting :=
    event.kind = EventKind.FirstMeeting ||
    detect_first_meeting event.participants observer known_entities
  let episodic0 := EpisodicMemory.new epId event.description
    event.participants event.location event.timestamp
    event.emotional_valence
    (if is_first_meeting then max event.importance 0.7 else event.importance)
  let episodic :=
    if is_first_meeting then episodic0.with_first_meeting else episodic0
  let bank1 := { bank with episodic := bank.episodic ++ [episodic] }
  let step3 : MemoryBank × ℕ :=
    if |event.emotional_valence| > 0.4 then
      match primary_target event.participants observer with
      | some target =>
        let emotion := classify_emotion event.emotional_valence event.kind
        let emotional := EmotionalMemory.new emId target emotion
          |event.emotional_valence| (event.pad_shift.getD PADState.NEUTRAL)
          [] event.timestamp
        ({ bank1 with emotional := bank1.emotional ++ [emotional] }, 1)
      | none => (bank1, 0)
    else (bank1, 0)
  let should_trigger_reflection :=
    decide (|event.emotional_valence| > 0.7) || decide (event.importance > 0.8)
  let should_trigger_gossip :=
    decide (event.importance > 0.5) &&
    (match event.kind with
     | .Combat | .Help | .Harm | .Death | .Quest => true
     | _ => false)
  (step3.1,
   { episodic_created := 1
     emotional_created := step3.2
     is_first_meeting := is_first_meeting
     should_trigger_reflection := should_trigger_reflection
     should_trigger_gossip := should_trigger_gossip })

/-- Gossip reception (`observation.rs`, fn `observe_gossip`): appends a
`SocialMemory::new` record to the listener's bank. The fresh id is the
explicit parameter `newId`. -/
def observe_gossip (newId : ℕ) (about source : ℕ) (claim : String)
    (trust_in_source : ℚ) (propagation_depth : ℕ) (timestamp : ℕ)
    (bank : MemoryBank) : MemoryBank :=
  let social := SocialMemory.new newId about source claim trust_in_source
    propagation_depth timestamp
  { bank with social := bank.social ++ [social] }

/-! ### Behavior (`behavior.rs`) -/

/-- How a disposition was computed (`behavior.rs`, enum
`DispositionBasis`). -/
inductive DispositionBasis where
  | DirectExperience (positive_count negative_count : ℕ)
  | Hearsay (source_count : ℕ) (avg_trust : ℚ)
  | Mixed (direct_weight : ℚ)
  | Unknown
deriving Repr, DecidableEq

/-- Disposition of an NPC toward an entity (`behavior.rs`, struct
`Disposition`). -/
structure Disposition where
  sentiment : ℚ
  confidence : ℚ
  interaction_count : ℕ
  basis : DispositionBasis
deriving Repr, DecidableEq

/-- Direct-experience channel (`behavior.rs`, fn
`compute_direct_sentiment`): strength×importance-weighted mean of
episodic valences blended `0.6/0.4` with the latest emotional memory's
signed intensity. -/
def compute_direct_sentiment (bank : MemoryBank) (target : ℕ) :
    Option Disposition :=
  let relevant_episodic :=
    bank.episodic.filter fun m => m.participants.contains target
  let relevant_emotional :=
    bank.emotional.filter fun m => m.target = target
  if relevant_episodic.isEmpty && relevant_emotional.isEmpty then none
  else
    let episodic_sentiment : ℚ :=
      if relevant_episodic.isEmpty then 0
      else
        let total_weight :=
          (relevant_episodic.map fun m => m.strength * m.importance).sum
        if total_weight = 0 then 0
        else
          (relevant_episodic.map fun m =>
            m.emotional_valence * m.strength * m.importance).sum /
            total_weight
    let emotional_sentiment : ℚ :=
      match relevant_emotional.getLast? with
      | some m => m.intensity * (if m.pad_state.pleasure > 0 then 1 else -1)
      | none => 0
    let positive :=
      (relevant_episodic.filter fun m => m.emotional_valence > 0.1).length
    let negative :=
      (relevant_episodic.filter fun m => m.emotional_valence < -0.1).length
    let sentiment :=
      clampQ (episodic_sentiment * 0.6 + emotional_sentiment * 0.4) (-1) 1
    let count := relevant_episodic.length + relevant_emotional.length
    let confidence := min ((count : ℚ) / 10) 1
    some
      { sentiment := sentiment
        confidence := confidence
        interaction_count := count
        basis := .DirectExperience positive negative }

/-- Hearsay channel (`behavior.rs`, fn `compute_social_sentiment`):
trust-weighted mean of believed social sentiments about the target. -/
def compute_social_sentiment (bank : MemoryBank) (target : ℕ) :
    Option Disposition :=
  let relevant :=
    bank.social.filter fun m => m.about = target && m.believed
  if relevant.isEmpty then none
  else
    let avg_trust :=
      (relevant.map fun m => m.trust_in_source).sum / (relevant.length : ℚ)
    let social_sentiment :=
      (relevant.map fun m => m.sentiment * m.trust_in_source).sum /
        max ((relevant.map fun m => m.trust_in_source).sum) 0.01
    some
      { sentiment := clampQ social_sentiment (-1) 1
        confidence := min (avg_trust * (relevant.length : ℚ) / 5) 1
        interaction_count := relevant.length
        basis := .Hearsay relevant.length avg_trust }

/-- Disposition aggregation (`behavior.rs`, fn `compute_disposition`):
direct experience mixed `0.75/0.25` with hearsay when both exist. -/
def compute_disposition (bank : MemoryBank) (target : ℕ) : Disposition :=
  let direct := compute_direct_sentiment bank target
  let social := compute_social_sentiment bank target
  match direct, social with
  | some d, some s =>
    let weight : ℚ := 0.75
    let combined := d.sentiment * weight + s.sentiment * (1 - weight)
    let confidence :=
      min (d.confidence * weight + s.confidence * (1 - weight)) 1
    { sentiment := clampQ combined (-1) 1
      confidence := confidence
      interaction_count := d.interaction_count + s.interaction_count
      basis := .Mixed weight }
  | some d, none => d
  | none, some s => s
  | none, none =>
    { sentiment := 0, confidence := 0, interaction_count := 0,
      basis := .Unknown }

/-- Quest eligibility (`behavior.rs`, fn `check_quest_eligibility`):
refuses when the disposition is distrusted with enough confidence. -/
def check_quest_eligibility (bank : MemoryBank) (player : ℕ) :
    Bool × String :=
  let disposition := compute_disposition bank player
  if disposition.sentiment < -0.5 ∧ disposition.confidence > 0.3 then
    (false, "I don't trust you enough for this task.")
  else if disposition.sentiment > 0.5 ∧ disposition.confidence > 0.3 then
    (true, "You've proven yourself reliable. I have something for you.")
  else
    (true, "I have a task that needs doing.")

/-! ### Reputation board (`reputation.rs`) -/

/-- Reputation tiers (`reputation.rs`, enum `ReputationTier`). -/
inductive ReputationTier where
  | Hero
  | Ally
  | Friendly
  | Neutral
  | Unfriendly
  | Outcast
  | Villain
deriving Repr, DecidableEq

/-- Tier classification (`reputation.rs`, `ReputationTier::from_score`). -/
def ReputationTier.from_score (score : ℚ) : ReputationTier :=
  if score > 0.8 then .Hero
  else if score > 0.4 then .Ally
  else if score > 0.1 then .Friendly
  else if score > -0.1 then .Neutral
  else if score > -0.4 then .Unfriendly
  else if score > -0.8 then .Outcast
  else .Villain

/-- A single reputation entry (`reputation.rs`, struct
`ReputationEntry`). -/
structure ReputationEntry where
  entity : ℕ
  score : ℚ
  tier : ReputationTier
  contributor_count : ℕ
  last_updated : ℕ
deriving Repr, DecidableEq

/-- A notable deed (`reputation.rs`, struct `NotableDeed`). -/
structure NotableDeed where
  actor : ℕ
  description : String
  valence : ℚ
  timestamp : ℕ
  witness_count : ℕ
deriving Repr, DecidableEq

/-- A settlement's reputation board (`reputation.rs`, struct
`ReputationBoard`). -/
structure ReputationBoard where
  settlement : ℕ
  entries : List ReputationEntry
  notable_deeds : List NotableDeed
  max_entries : ℕ
  max_deeds : ℕ
  last_refresh : ℕ
deriving Repr, DecidableEq

/-- `ReputationBoard::new` — empty board with capacities 100/20. -/
def ReputationBoard.new (settlement : ℕ) (timestamp : ℕ) :
    ReputationBoard :=
  { settlement := settlement
    entries := []
    notable_deeds := []
    max_entries := 100
    max_deeds := 20
    last_refresh := timestamp }

/-- The in-place update of the first entry matching `entity` performed
by `report_sentiment`'s `iter_mut().find(..)` branch: fold the clamped
sentiment into the running mean and recompute the tier. -/
def updateFirstEntry (entries : List ReputationEntry) (entity : ℕ)
    (s : ℚ) (timestamp : ℕ) : List ReputationEntry :=
  match entries with
  | [] => []
  | e :: rest =>
    if e.entity = entity then
      let n : ℚ := (e.contributor_count : ℚ)
      let newScore := (e.score * n + s) / (n + 1)
      { e with
        score := newScore
        contributor_count := e.contributor_count + 1
        tier := ReputationTier.from_score newScore
        last_updated := timestamp } :: rest
    else
      e :: updateFirstEntry rest entity s timestamp

/-- The comparator of the capacity-enforcement sort in
`report_sentiment`: contributor count descending, then `|score|`
descending. -/
def entryLe (a b : ReputationEntry) : Bool :=
  decide (b.contributor_count < a.contributor_count) ||
  (decide (b.contributor_count = a.contributor_count) &&
   decide (|b.score| ≤ |a.score|))

/-- `ReputationBoard::report_sentiment` (`reputation.rs`): clamp the
sentiment to `[-1, 1]`, fold it into the running mean of the first
matching entry, or push a new entry and enforce the capacity by a
stable sort plus truncation. -/
def ReputationBoard.report_sentiment (board : ReputationBoard)
    (entity : ℕ) (sentiment : ℚ) (timestamp : ℕ) : ReputationBoard :=
  let s := clampQ sentiment (-1) 1
  if board.entries.any fun e => e.entity = entity then
    { board with entries := updateFirstEntry board.entries entity s timestamp }
  else
    let entries1 := board.entries ++
      [{ entity := entity
         score := s
         tier := ReputationTier.from_score s
         contributor_count := 1
         last_updated := timestamp }]
    if entries1.length > board.max_entries then
      { board with entries := (entries1.mergeSort entryLe).take board.max_entries }
    else
      { board with entries := entries1 }

/-! ## Helper lemmas -/

theorem clampQ_mem (x lo hi : ℚ) (h : lo ≤ hi) :
    lo ≤ clampQ x lo hi ∧ clampQ x lo hi ≤ hi := by
  unfold clampQ
  constructor
  · exact le_min (le_max_right x lo) h
  · exact min_le_right _ _

/-! ## Claims -/

/-- C2: a decay pass removes exactly those episodic memories whose
retention is at most `decay_rate` and that are not protected (not a
first meeting and `|valence| ≤ 0.8`); equivalently, the pass equals the
order-preserving filter keeping a memory iff it is protected or its
retention exceeds the threshold, so protected memories survive every
pass and survivors keep their insertion order. Holds for every
interpretation of the `exp`/`log2` library calls. -/
theorem decay_pass_removes_exactly_unprotected_low_retention
    (fexp flog2 : ℚ → ℚ) (memories : List EpisodicMemory)
    (current_time : ℕ) (config : MemoryConfig) :
    decay_episodic_memories fexp flog2 memories current_time config =
      memories.filter fun m =>
        !(decide (episodic_retention fexp flog2 m current_time ≤
            config.decay_rate) &&
          !(m.is_first_meeting || decide (|m.emotional_valence| > 0.8))) := by
  unfold decay_episodic_memories
  apply List.filter_congr
  intro m _
  by_cases h1 : m.is_first_meeting
  · simp [h1]
  · by_cases h2 : |m.emotional_valence| > 0.8
    · simp [h1, h2]
    · by_cases h3 : episodic_retention fexp flog2 m current_time ≤
          config.decay_rate
      · simp [h1, h2, h3, not_lt.mpr h3]
      · simp [h1, h2, h3, not_le.mp h3]

/-- C6: the decay pass is idempotent — running it twice with the same
timestamp and config produces the same sequence as running it once,
for every interpretation of the `exp`/`log2` library calls. -/
theorem decay_pass_idempotent (fexp flog2 : ℚ → ℚ)
    (memories : List EpisodicMemory) (current_time : ℕ)
    (config : MemoryConfig) :
    decay_episodic_memories fexp flog2
      (decay_episodic_memories fexp flog2 memories current_time config)
      current_time config =
    decay_episodic_memories fexp flog2 memories current_time config := by
  unfold decay_episodic_memories
  rw [List.filter_filter]
  apply List.filter_congr
  intro m _
  cases h : (m.is_first_meeting ||
      decide (|m.emotional_valence| > 0.8) ||
      decide (episodic_retention fexp flog2 m current_time >
        config.decay_rate)) <;> simp [h]

/-- C8: for a memory whose timestamp lies in the future of the current
time (clock skew), the saturating tick subtraction yields age zero, so
`episodic_retention` returns `1.0` (given `exp 0 = 1` and the
data-model invariant `importance ≥ 0`) and `classify_ring` returns
`Hot`; both functions are total in the embedding, so neither panics. -/
theorem clock_skew_retention_one_and_ring_hot (fexp flog2 : ℚ → ℚ)
    (m : EpisodicMemory) (current_time ticks_per_hour : ℕ)
    (config : EvictionConfig) (hexp : fexp 0 = 1)
    (himp : 0 ≤ m.importance) (hskew : current_time < m.timestamp) :
    episodic_retention fexp flog2 m current_time = 1 ∧
    classify_ring m.timestamp current_time ticks_per_hour config =
      Ring.Hot := by
  constructor
  · have hdelta : current_time - m.timestamp = 0 :=
      Nat.sub_eq_zero_of_le hskew.le
    unfold episodic_retention ebbinghaus
    have hpos : 0 < memory_strength flog2 m.importance
        |m.emotional_valence| m.access_count m.is_first_meeting := by
      unfold memory_strength
      have h1 : (0:ℚ) < 1 + m.importance := by linarith
      have h2 : (0:ℚ) < 1 + |m.emotional_valence| := by
        have := abs_nonneg m.emotional_valence
        linarith
      have h3 : (0:ℚ) <
          max (flog2 (1 + (m.access_count : ℚ))) 1 := by
        have := le_max_right (flog2 (1 + (m.access_count : ℚ))) 1
        linarith
      have h4 : (0:ℚ) < (if m.is_first_meeting then (1.5 : ℚ) else 1) := by
        split <;> norm_num
      positivity
    rw [if_neg (not_le.mpr hpos)]
    rw [hdelta]
    norm_num [hexp]
  · unfold classify_ring
    rw [if_pos hskew]

/-- C9: `check_quest_eligibility` refuses (returns not-eligible) if and
only if the disposition computed from the bank toward the player has
sentiment strictly below `-0.5` and confidence strictly above `0.3`. -/
theorem quest_refusal_iff_distrusted_confident (bank : MemoryBank)
    (player : ℕ) :
    (check_quest_eligibility bank player).1 = false ↔
      ((compute_disposition bank player).sentiment < -0.5 ∧
       (compute_disposition bank player).confidence > 0.3) := by
  unfold check_quest_eligibility
  by_cases h1 : (compute_disposition bank player).sentiment < -0.5 ∧
      (compute_disposition bank player).confidence > 0.3
  · simp [h1]
  · by_cases h2 : (compute_disposition bank player).sentiment > 0.5 ∧
        (compute_disposition bank player).confidence > 0.3
    · have h3 : ¬ (compute_disposition bank player).sentiment < -0.5 := by
        linarith [h2.1]
      simp [h1, h2, h3]
    · simp [h1, h2]

/-- C3 (code bug): `RetrievalEngine::retrieve` binds its personality
weight overrides parameter as `_personality_weights` and never reads
it, so passing any override produces exactly the output of passing
none — the per-factor weights used stay the configured weights and no
override can change the ranking, contrary to the spec. -/
theorem retrieve_ignores_personality_overrides (fexp fsqrt : ℚ → ℚ)
    (config : RetrievalConfig) (context_embedding : Embedding)
    (memories : List MemoryEntry) (current_time : ℕ)
    (o : PersonalityWeightOverrides) :
    RetrievalEngine.retrieve fexp fsqrt config context_embedding memories
      current_time (some o) =
    RetrievalEngine.retrieve fexp fsqrt config context_embedding memories
      current_time none := rfl

/-- Witness for C8 at a concrete input: a memory stamped at tick 10
inspected at tick 5 keeps retention `1` and classifies `Hot`. -/
theorem clock_skew_retention_witness :
    episodic_retention (fun _ => 1) (fun _ => 0)
      ⟨0, "e", [], Location.default, 10, 0.5, 0.5, 0.05, 1, 0, 10,
        false, none⟩ 5 = 1 ∧
    classify_ring 10 5 3600 EvictionConfig.default = Ring.Hot :=
  clock_skew_retention_one_and_ring_hot (fun _ => 1) (fun _ => 0)
    ⟨0, "e", [], Location.default, 10, 0.5, 0.5, 0.05, 1, 0, 10,
      false, none⟩ 5 3600 EvictionConfig.default rfl (by norm_num)
    (by norm_num)

/-- C10: every social memory built by `SocialMemory::new` — including
the receiver's memory on an accepted propagation and the memory
appended by gossip reception — starts with sentiment `0.0` and
`believed = (trust_in_source > 0.5)`; in particular an accepted hop
never carries the original claim's sentiment. -/
theorem social_memory_construction_sentiment_and_belief :
    (∀ (id about source : ℕ) (claim : String) (trust : ℚ) (depth ts : ℕ),
      (SocialMemory.new id about source claim trust depth ts).sentiment =
        0 ∧
      ((SocialMemory.new id about source claim trust depth ts).believed =
        true ↔ trust > 0.5)) ∧
    (∀ (fexp : ℚ → ℚ) (newId : ℕ) (claim : SocialMemory)
      (pers : PersonalityTraits) (trust : ℚ) (hde : Bool) (ds : Option ℚ)
      (cons emo rel : ℚ) (t : ℕ) (nm : SocialMemory) (bs : ℚ),
      propagate_memory fexp newId claim pers trust hde ds cons emo rel t =
        .Accepted nm bs →
      nm.sentiment = 0 ∧ (nm.believed = true ↔ trust > 0.5)) ∧
    (∀ (newId about source : ℕ) (claim : String) (trust : ℚ)
      (depth ts : ℕ) (bank : MemoryBank),
      (observe_gossip newId about source claim trust depth ts
        bank).social =
        bank.social ++
          [SocialMemory.new newId about source claim trust depth ts]) := by
  refine ⟨?_, ?_, ?_⟩
  · intro id about source claim trust depth ts
    exact ⟨rfl, by simp [SocialMemory.new]⟩
  · intro fexp newId claim pers trust hde ds cons emo rel t nm bs h
    simp only [propagate_memory] at h
    split at h
    · injection h with h1 h2
      subst h1
      exact ⟨rfl, by simp [SocialMemory.new]⟩
    · split at h
      · exact PropagationResult.noConfusion h
      · exact PropagationResult.noConfusion h
  · intro newId about source claim trust depth ts bank
    rfl

/-- Witness for C10 at a concrete input: a fully trusted, consistent,
directly confirmed claim is accepted, and the receiver's new memory has
sentiment `0` and `believed = true`. -/
theorem social_memory_construction_witness :
    propagate_memory (fun _ => 1) 9 (SocialMemory.new 8 1 2 "c" 0.9 0 0)
      ⟨0.5, 0.9, 0.5, 0.5, 0.5⟩ 1 true (some 1) 1 0 1 0 =
      .Accepted (SocialMemory.new 9 1 2 "c" 1 1 0) 1 ∧
    ((SocialMemory.new 9 1 2 "c" 1 1 0).sentiment = 0 ∧
     ((SocialMemory.new 9 1 2 "c" 1 1 0).believed = true ↔
       (1:ℚ) > 0.5)) :=
  ⟨by norm_num [propagate_memory, propagation_belief, SocialMemory.new,
      clampQ, BELIEF_THRESHOLD, HYSTERESIS],
   social_memory_construction_sentiment_and_belief.2.1 (fun _ => 1) 9
     (SocialMemory.new 8 1 2 "c" 0.9 0 0) ⟨0.5, 0.9, 0.5, 0.5, 0.5⟩ 1
     true (some 1) 1 0 1 0 (SocialMemory.new 9 1 2 "c" 1 1 0) 1
     (by norm_num [propagate_memory, propagation_belief, SocialMemory.new,
       clampQ, BELIEF_THRESHOLD, HYSTERESIS])⟩

/-- C4: `propagate_memory` returns `Accepted` exactly when the computed
belief exceeds `0.55`, `Rejected` exactly when it is below `0.45`, and
`Uncertain` otherwise with `will_investigate` iff the receiver's
openness exceeds `0.5`; an accepted result carries the belief strength
and a new social memory with the claim's propagation depth plus one and
the claim's original source. -/
theorem propagate_memory_threshold_decision (fexp : ℚ → ℚ) (newId : ℕ)
    (claim : SocialMemory) (pers : PersonalityTraits) (trust : ℚ)
    (hde : Bool) (ds : Option ℚ) (cons emo rel : ℚ) (t : ℕ) :
    ((∃ nm bs,
        propagate_memory fexp newId claim pers trust hde ds cons emo rel t
          = .Accepted nm bs) ↔
      propagation_belief fexp claim pers trust hde ds cons emo rel t >
        0.55) ∧
    ((∃ r,
        propagate_memory fexp newId claim pers trust hde ds cons emo rel t
          = .Rejected r) ↔
      propagation_belief fexp claim pers trust hde ds cons emo rel t <
        0.45) ∧
    ((∃ w,
        propagate_memory fexp newId claim pers trust hde ds cons emo rel t
          = .Uncertain w) ↔
      (0.45 ≤ propagation_belief fexp claim pers trust hde ds cons emo rel t
        ∧ propagation_belief fexp claim pers trust hde ds cons emo rel t ≤
          0.55)) ∧
    (∀ nm bs,
      propagate_memory fexp newId claim pers trust hde ds cons emo rel t =
        .Accepted nm bs →
      nm.propagation_depth = claim.propagation_depth + 1 ∧
      nm.source = claim.source ∧
      bs = propagation_belief fexp claim pers trust hde ds cons emo rel t) ∧
    (∀ w,
      propagate_memory fexp newId claim pers trust hde ds cons emo rel t =
        .Uncertain w →
      (w = true ↔ pers.openness > 0.5)) := by
  have hmaster :
      propagate_memory fexp newId claim pers trust hde ds cons emo rel t =
      (if propagation_belief fexp claim pers trust hde ds cons emo rel t >
          0.55 then
        PropagationResult.Accepted
          (SocialMemory.new newId claim.about claim.source claim.claim
            trust (claim.propagation_depth + 1) t)
          (propagation_belief fexp claim pers trust hde ds cons emo rel t)
      else if propagation_belief fexp claim pers trust hde ds cons emo rel t
          < 0.45 then
        PropagationResult.Rejected "Belief score too low"
      else
        PropagationResult.Uncertain (decide (pers.openness > 0.5))) := by
    unfold propagate_memory
    norm_num [BELIEF_THRESHOLD, HYSTERESIS]
  rw [hmaster]
  by_cases h1 : propagation_belief fexp claim pers trust hde ds cons emo
      rel t > 0.55
  · refine ⟨?_, ?_, ?_, ?_, ?_⟩
    · exact ⟨fun _ => h1, fun _ => ⟨_, _, by rw [if_pos h1]⟩⟩
    · constructor
      · rintro ⟨r, hr⟩
        rw [if_pos h1] at hr
        exact PropagationResult.noConfusion hr
      · intro h
        linarith
    · constructor
      · rintro ⟨w, hw⟩
        rw [if_pos h1] at hw
        exact PropagationResult.noConfusion hw
      · rintro ⟨_, hle⟩
        exact absurd h1 (not_lt.mpr hle)
    · intro nm bs h
      rw [if_pos h1] at h
      injection h with hnm hbs
      subst hnm
      exact ⟨rfl, rfl, hbs.symm⟩
    · intro w h
      rw [if_pos h1] at h
      exact PropagationResult.noConfusion h
  · by_cases h2 : propagation_belief fexp claim pers trust hde ds cons emo
        rel t < 0.45
    · refine ⟨?_, ?_, ?_, ?_, ?_⟩
      · constructor
        · rintro ⟨nm, bs, h⟩
          rw [if_neg h1, if_pos h2] at h
          exact PropagationResult.noConfusion h
        · intro h
          exact absurd h h1
      · exact ⟨fun _ => h2, fun _ => ⟨_, by rw [if_neg h1, if_pos h2]⟩⟩
      · constructor
        · rintro ⟨w, hw⟩
          rw [if_neg h1, if_pos h2] at hw
          exact PropagationResult.noConfusion hw
        · rintro ⟨hge, _⟩
          exact absurd h2 (not_lt.mpr hge)
      · intro nm bs h
        rw [if_neg h1, if_pos h2] at h
        exact PropagationResult.noConfusion h
      · intro w h
        rw [if_neg h1, if_pos h2] at h
        exact PropagationResult.noConfusion h
    · refine ⟨?_, ?_, ?_, ?_, ?_⟩
      · constructor
        · rintro ⟨nm, bs, h⟩
          rw [if_neg h1, if_neg h2] at h
          exact PropagationResult.noConfusion h
        · intro h
          exact absurd h h1
      · constructor
        · rintro ⟨r, hr⟩
          rw [if_neg h1, if_neg h2] at hr
          exact PropagationResult.noConfusion hr
        · intro h
          exact absurd h h2
      · constructor
        · intro _
          exact ⟨not_lt.mp h2, not_lt.mp h1⟩
        · intro _
          exact ⟨decide (pers.openness > 0.5), by rw [if_neg h1, if_neg h2]⟩
      · intro nm bs h
        rw [if_neg h1, if_neg h2] at h
        exact PropagationResult.noConfusion h
      · intro w h
        rw [if_neg h1, if_neg h2] at h
        injection h with hw
        subst hw
        simp

/-- Witness for C4 at a concrete input: a fully trusted, consistent,
directly confirmed claim has belief above `0.55` and is accepted. -/
theorem propagate_memory_threshold_witness :
    ∃ nm bs,
      propagate_memory (fun _ => 1) 4 (SocialMemory.new 3 1 2 "g" 0.9 0 0)
        ⟨0.5, 0.9, 0.5, 0.5, 0.5⟩ 1 true (some 1) 1 0 1 0 =
        .Accepted nm bs :=
  ((propagate_memory_threshold_decision (fun _ => 1) 4
      (SocialMemory.new 3 1 2 "g" 0.9 0 0) ⟨0.5, 0.9, 0.5, 0.5, 0.5⟩ 1
      true (some 1) 1 0 1 0).1).mpr
    (by norm_num [propagation_belief, SocialMemory.new, clampQ])

/-- Counterexample to C5 as stated: a `Help` event with valence `0.5`
(so `|valence| > 0.4`) but no participant other than the observer
appends no emotional memory, because `observe` requires a primary
target. -/
theorem observe_no_emotional_without_other_participant :
    (0.4:ℚ) <
      |(⟨.Help, "d", [], [], Location.default, 0, 0.5, 0.5, none⟩ :
        ObservedEvent).emotional_valence| ∧
    (observe 0 1
      ⟨.Help, "d", [], [], Location.default, 0, 0.5, 0.5, none⟩ 0
      MemoryBank.new []).1.emotional = [] := by
  constructor
  · show (0.4:ℚ) < |(0.5:ℚ)|
    rw [abs_of_nonneg (by norm_num : (0:ℚ) ≤ 0.5)]
    norm_num
  · simp only [observe, primary_target, List.find?]
    split <;> rfl

/-- C5 (amended): for every observed event with `|valence| > 0.4` that
has a participant other than the observer, `observe` appends exactly
one emotional memory targeting the first such participant, labelled by
`classify_emotion` from the event kind and the sign of the valence
(Combat positive/negative ⇒ pride/fear, Help ⇒ gratitude, Harm ⇒
anger, Death ⇒ grief). -/
theorem observe_appends_emotional_with_target (epId emId observer : ℕ)
    (event : ObservedEvent) (bank : MemoryBank) (known : List ℕ)
    (hval : |event.emotional_valence| > 0.4) (target : ℕ)
    (htgt : primary_target event.participants observer = some target) :
    (observe epId emId event observer bank known).1.emotional =
      bank.emotional ++
        [EmotionalMemory.new emId target
          (classify_emotion event.emotional_valence event.kind)
          |event.emotional_valence|
          (event.pad_shift.getD PADState.NEUTRAL) [] event.timestamp] ∧
    (event.kind = .Combat → 0 < event.emotional_valence →
      classify_emotion event.emotional_valence event.kind = "pride") ∧
    (event.kind = .Combat → event.emotional_valence < 0 →
      classify_emotion event.emotional_valence event.kind = "fear") ∧
    (event.kind = .Help →
      classify_emotion event.emotional_valence event.kind = "gratitude") ∧
    (event.kind = .Harm →
      classify_emotion event.emotional_valence event.kind = "anger") ∧
    (event.kind = .Death →
      classify_emotion event.emotional_valence event.kind = "grief") := by
  refine ⟨?_, ?_, ?_, ?_, ?_, ?_⟩
  · simp only [observe]
    rw [if_pos hval, htgt]
  · intro hk hv
    rw [hk]
    simp [classify_emotion, hv]
  · intro hk hv
    rw [hk]
    have hnp : ¬ event.emotional_valence > 0 := by linarith
    simp [classify_emotion, hnp]
  · intro hk
    rw [hk]
    rfl
  · intro hk
    rw [hk]
    rfl
  · intro hk
    rw [hk]
    rfl

/-- Witness for the amended C5 at a concrete input: a `Help` event with
valence `0.6` toward participant `5` appends a gratitude-labelled
emotional memory. -/
theorem observe_appends_emotional_witness :
    (observe 0 1
      ⟨.Help, "w", [5], [], Location.default, 0, 0.6, 0.5, none⟩ 0
      MemoryBank.new []).1.emotional =
      MemoryBank.new.emotional ++
        [EmotionalMemory.new 1 5 (classify_emotion (0.6:ℚ) .Help)
          |(0.6:ℚ)| PADState.NEUTRAL [] 0] :=
  (observe_appends_emotional_with_target 0 1 0
    ⟨.Help, "w", [5], [], Location.default, 0, 0.6, 0.5, none⟩
    MemoryBank.new []
    (by
      show (0.4:ℚ) < |(0.6:ℚ)|
      rw [abs_of_nonneg (by norm_num : (0:ℚ) ≤ 0.6)]
      norm_num)
    5 rfl).1

theorem updateFirstEntry_scores_bounded (entity : ℕ) (s : ℚ) (ts : ℕ)
    (hs1 : -1 ≤ s) (hs2 : s ≤ 1) :
    ∀ (entries : List ReputationEntry),
      (∀ e ∈ entries, -1 ≤ e.score ∧ e.score ≤ 1) →
      ∀ e ∈ updateFirstEntry entries entity s ts,
        -1 ≤ e.score ∧ e.score ≤ 1 := by
  intro entries
  induction entries with
  | nil =>
    intro _ e he
    simp [updateFirstEntry] at he
  | cons head rest ih =>
    intro hb e he
    simp only [updateFirstEntry] at he
    by_cases hh : head.entity = entity
    · rw [if_pos hh] at he
      rcases List.mem_cons.mp he with h | h
      · subst h
        dsimp only
        have hn : (0:ℚ) ≤ (head.contributor_count : ℚ) := by positivity
        have hpos : (0:ℚ) < (head.contributor_count : ℚ) + 1 := by linarith
        have hhead := hb head (List.mem_cons_self _ _)
        constructor
        · rw [le_div_iff₀ hpos]
          nlinarith [hhead.1, hhead.2]
        · rw [div_le_iff₀ hpos]
          nlinarith [hhead.1, hhead.2]
      · exact hb e (List.mem_cons_of_mem _ h)
    · rw [if_neg hh] at he
      rcases List.mem_cons.mp he with h | h
      · rw [h]
        exact hb head (List.mem_cons_self _ _)
      · exact ih (fun x hx => hb x (List.mem_cons_of_mem _ hx)) e h

theorem report_sentiment_preserves_bounds (board : ReputationBoard)
    (hb : ∀ e ∈ board.entries, -1 ≤ e.score ∧ e.score ≤ 1)
    (entity : ℕ) (sentiment : ℚ) (ts : ℕ) :
    ∀ e ∈ (board.report_sentiment entity sentiment ts).entries,
      -1 ≤ e.score ∧ e.score ≤ 1 := by
  have hs := clampQ_mem sentiment (-1) 1 (by norm_num)
  unfold ReputationBoard.report_sentiment
  by_cases hfind : board.entries.any fun e => e.entity = entity
  · rw [if_pos hfind]
    exact updateFirstEntry_scores_bounded entity _ ts hs.1 hs.2
      board.entries hb
  · rw [if_neg hfind]
    by_cases hlen : (board.entries ++
        [({ entity := entity
            score := clampQ sentiment (-1) 1
            tier := ReputationTier.from_score (clampQ sentiment (-1) 1)
            contributor_count := 1
            last_updated := ts } : ReputationEntry)]).length >
        board.max_entries
    · rw [if_pos hlen]
      intro e he
      have h1 : e ∈ (board.entries ++
          [({ entity := entity
              score := clampQ sentiment (-1) 1
              tier := ReputationTier.from_score (clampQ sentiment (-1) 1)
              contributor_count := 1
              last_updated := ts } : ReputationEntry)]).mergeSort
            entryLe :=
        List.mem_of_mem_take he
      have h2 := (List.mergeSort_perm _ entryLe).mem_iff.mp h1
      rcases List.mem_append.mp h2 with h | h
      · exact hb e h
      · simp only [List.mem_singleton] at h
        subst h
        exact hs
    · rw [if_neg hlen]
      intro e he
      rcases List.mem_append.mp he with h | h
      · exact hb e h
      · simp only [List.mem_singleton] at h
        subst h
        exact hs

/-- C7: starting from a fresh board, any sequence of `report_sentiment`
calls with arbitrary rational sentiment inputs keeps the score of every
entry within `[-1, 1]`: the input is clamped and then folded into a
running mean of previously bounded scores. -/
theorem reputation_scores_bounded (settlement ts0 : ℕ)
    (reports : List (ℕ × ℚ × ℕ)) :
    ∀ e ∈ (reports.foldl
        (fun b r => b.report_sentiment r.1 r.2.1 r.2.2)
        (ReputationBoard.new settlement ts0)).entries,
      -1 ≤ e.score ∧ e.score ≤ 1 := by
  have main : ∀ (rs : List (ℕ × ℚ × ℕ)) (b : ReputationBoard),
      (∀ e ∈ b.entries, -1 ≤ e.score ∧ e.score ≤ 1) →
      ∀ e ∈ (rs.foldl
          (fun b r => b.report_sentiment r.1 r.2.1 r.2.2) b).entries,
        -1 ≤ e.score ∧ e.score ≤ 1 := by
    intro rs
    induction rs with
    | nil => intro b hb; exact hb
    | cons r rest ih =>
      intro b hb
      exact ih _ (report_sentiment_preserves_bounds b hb r.1 r.2.1 r.2.2)
  refine main reports _ ?_
  intro e he
  exact absurd he (List.not_mem_nil e)

/-- Witness for C7 at a concrete input: a single report of sentiment
`5` is clamped to `1`, creating one entry whose score stays within
`[-1, 1]`. -/
theorem reputation_scores_bounded_witness :
    -1 ≤ ((⟨7, 1, .Hero, 1, 0⟩ : ReputationEntry)).score ∧
    ((⟨7, 1, .Hero, 1, 0⟩ : ReputationEntry)).score ≤ 1 :=
  reputation_scores_bounded 0 0 [(7, 5, 0)]
    (⟨7, 1, .Hero, 1, 0⟩ : ReputationEntry)
    (by
      show _ ∈ (List.foldl _ (ReputationBoard.new 0 0) [(7, 5, 0)]).entries
      norm_num [ReputationBoard.new, ReputationBoard.report_sentiment,
        clampQ, ReputationTier.from_score])

/-- Protection predicate of `eviction_score`: first-meeting while
configured, or `|valence|` above the emotional threshold. -/
def protectedB (m : EpisodicMemory) (config : EvictionConfig) : Bool :=
  (m.is_first_meeting && config.protect_first_meeting) ||
  decide (|m.emotional_valence| > config.protect_emotional_threshold)

theorem eviction_score_protected (m : EpisodicMemory)
    (config : EvictionConfig) (t : ℕ) (h : protectedB m config = true) :
    eviction_score m.importance m.emotional_valence m.is_first_meeting t
      config = f64MAX := by
  unfold eviction_score
  simp only [protectedB, Bool.or_eq_true, Bool.and_eq_true,
    decide_eq_true_eq] at h
  by_cases h1 : m.is_first_meeting && config.protect_first_meeting
  · rw [if_pos h1]
  · rw [if_neg h1]
    rcases h with h2 | h2
    · exact absurd (by simp [h2.1, h2.2]) h1
    · rw [if_pos h2]

theorem eviction_score_unprotected_le_two (m : EpisodicMemory)
    (config : EvictionConfig) (t : ℕ) (h : protectedB m config = false)
    (himp0 : 0 ≤ m.importance) (himp1 : m.importance ≤ 1)
    (hv : |m.emotional_valence| ≤ 1) :
    eviction_score m.importance m.emotional_valence m.is_first_meeting t
      config ≤ 2 := by
  unfold eviction_score
  simp only [protectedB, Bool.or_eq_false_iff, Bool.and_eq_false_iff,
    decide_eq_false_iff_not] at h
  have hand : (m.is_first_meeting && config.protect_first_meeting) =
      false := by
    rcases h.1 with hx | hx <;> simp [hx]
  rw [if_neg (by simp [hand])]
  rw [if_neg h.2]
  have hv0 := abs_nonneg m.emotional_valence
  have haf0 : (0:ℚ) ≤ (if t = 0 then (1:ℚ) else 1 / (t : ℚ)) := by
    split
    · norm_num
    · positivity
  have haf1 : (if t = 0 then (1:ℚ) else 1 / (t : ℚ)) ≤ 1 := by
    split
    · norm_num
    · rename_i ht
      have h1 : (1:ℚ) ≤ (t : ℚ) := by
        exact_mod_cast Nat.one_le_iff_ne_zero.mpr ht
      rw [div_le_one (by linarith)]
      exact h1
  calc m.importance * (1 + |m.emotional_valence|) *
        (if t = 0 then (1:ℚ) else 1 / (t : ℚ)) ≤
      1 * (1 + 1) * 1 := by gcongr
    _ = 2 := by norm_num

theorem two_lt_f64MAX : (2:ℚ) < f64MAX := by norm_num [f64MAX]

theorem mem_takeWhile_of_pairwise_top {α : Type} (c : ℚ) :
    ∀ (l : List (ℚ × α)), l.Pairwise (fun a b => b.1 ≤ a.1) →
      (∀ y ∈ l, y.1 ≤ c) → ∀ x ∈ l, x.1 = c →
      x ∈ l.takeWhile fun y => decide (y.1 = c) := by
  intro l
  induction l with
  | nil =>
    intro _ _ x hx
    exact absurd hx (List.not_mem_nil x)
  | cons hd t ih =>
    intro hpw hbound x hx hxc
    rcases List.pairwise_cons.mp hpw with ⟨hh, hpt⟩
    have hc : hd.1 = c := by
      rcases List.mem_cons.mp hx with hxh | hxt
      · rw [← hxh]
        exact hxc
      · have h1 := hh x hxt
        have h2 := hbound hd (List.mem_cons_self _ _)
        rw [hxc] at h1
        linarith
    rw [List.takeWhile_cons, if_pos (by simp [hc])]
    rcases List.mem_cons.mp hx with hxh | hxt
    · rw [hxh]
      exact List.mem_cons_self _ _
    · exact List.mem_cons_of_mem _
        (ih hpt (fun y hy => hbound y (List.mem_cons_of_mem _ hy)) x hxt
          hxc)

theorem mem_take_of_mem_takeWhile {α : Type} (p : α → Bool) :
    ∀ (l : List α) (n : ℕ), (l.takeWhile p).length ≤ n →
      ∀ x ∈ l.takeWhile p, x ∈ l.take n := by
  intro l
  induction l with
  | nil =>
    intro n _ x hx
    simp at hx
  | cons hd t ih =>
    intro n hlen x hx
    rw [List.takeWhile_cons] at hx hlen
    by_cases hp : p hd
    · rw [if_pos hp] at hx hlen
      cases n with
      | zero => simp at hlen
      | succ k =>
        rw [List.take_succ_cons]
        rcases List.mem_cons.mp hx with hxh | hxt
        · rw [hxh]
          exact List.mem_cons_self _ _
        · exact List.mem_cons_of_mem _
            (ih k (by simpa using hlen) x hxt)
    · rw [if_neg hp] at hx
      simp at hx

/-- Counterexample to C1 as stated: a first-meeting-protected memory of
Archive age (2160 game-hours with the default 90-day cold limit) is NOT
in the retained output — the ring partition runs before any protection
check, so the memory lands in the deletion handoff. -/
theorem evict_protected_archive_not_retained :
    (⟨0, "m", [], Location.default, 0, 0, 0.5, 0.05, 1, 0, 0, true,
      none⟩ : EpisodicMemory).is_first_meeting = true ∧
    EvictionConfig.default.protect_first_meeting = true ∧
    (evict_episodic_memories
      [⟨0, "m", [], Location.default, 0, 0, 0.5, 0.05, 1, 0, 0, true,
        none⟩] 2160 1 10 EvictionConfig.default).retained = [] ∧
    (evict_episodic_memories
      [⟨0, "m", [], Location.default, 0, 0, 0.5, 0.05, 1, 0, 0, true,
        none⟩] 2160 1 10 EvictionConfig.default).to_archive =
      [⟨0, "m", [], Location.default, 0, 0, 0.5, 0.05, 1, 0, 0, true,
        none⟩] :=
  ⟨rfl, rfl, rfl, rfl⟩

/-- C1 (amended): every protected memory that the pass classifies `Hot`
or `Warm` appears in the retained output, regardless of the
`max_in_memory` capacity, provided the bank invariant holds
(importance in `[0,1]`, `|valence| ≤ 1`) and at most `max_in_memory`
memories are protected; memories classified `Cold` or `Archive` go to
the handoffs regardless of protection. -/
theorem evict_protected_hot_warm_retained (memories : List EpisodicMemory)
    (current_tick ticks_per_hour max_in_memory : ℕ)
    (config : EvictionConfig)
    (hwf : ∀ mm ∈ memories,
      0 ≤ mm.importance ∧ mm.importance ≤ 1 ∧ |mm.emotional_valence| ≤ 1)
    (hcount : (memories.countP fun mm => protectedB mm config) ≤
      max_in_memory)
    (m : EpisodicMemory) (hm : m ∈ memories)
    (hprot : protectedB m config = true)
    (hring : (classify_ring m.timestamp current_tick ticks_per_hour
      config).keptInMemory = true) :
    m ∈ (evict_episodic_memories memories current_tick ticks_per_hour
      max_in_memory config).retained := by
  simp only [evict_episodic_memories]
  set retained0 := memories.filter
    (fun mm => (classify_ring mm.timestamp current_tick ticks_per_hour
      config).keptInMemory) with hr0
  have hm0 : m ∈ retained0 := List.mem_filter.mpr ⟨hm, hring⟩
  by_cases hlen : retained0.length > max_in_memory
  · rw [if_pos hlen]
    set score := fun (mm : EpisodicMemory) =>
      eviction_score mm.importance mm.emotional_valence mm.is_first_meeting
        (current_tick - mm.last_accessed) config with hsc
    set scored := retained0.map (fun mm => (score mm, mm)) with hscored
    set sorted := scored.mergeSort
      (fun a b => decide (b.1 ≤ a.1)) with hsorted
    show m ∈ (sorted.take max_in_memory).map Prod.snd
    have hperm := List.mergeSort_perm scored
      (fun (a b : ℚ × EpisodicMemory) => decide (b.1 ≤ a.1))
    have hxtop : score m = f64MAX :=
      eviction_score_protected m config _ hprot
    have hx : (score m, m) ∈ scored :=
      List.mem_map_of_mem _ hm0
    have hxs : (score m, m) ∈ sorted := hperm.mem_iff.mpr hx
    have hball : ∀ y ∈ sorted, y.1 ≤ f64MAX := by
      intro y hy
      obtain ⟨mm, hmm, rfl⟩ := List.mem_map.mp (hperm.mem_iff.mp hy)
      by_cases hp : protectedB mm config
      · exact le_of_eq (eviction_score_protected mm config _ hp)
      · obtain ⟨h1, h2, h3⟩ := hwf mm (List.mem_filter.mp hmm).1
        have := eviction_score_unprotected_le_two mm config
          (current_tick - mm.last_accessed)
          (Bool.of_not_eq_true hp) h1 h2 h3
        linarith [two_lt_f64MAX]
    have hpw : sorted.Pairwise
        (fun (a b : ℚ × EpisodicMemory) => b.1 ≤ a.1) := by
      have hs := @List.sorted_mergeSort (ℚ × EpisodicMemory)
        (fun a b => decide (b.1 ≤ a.1))
        (fun a b c hab hbc => by
          simp only [decide_eq_true_eq] at *
          exact le_trans hbc hab)
        (fun a b => by
          simp only [Bool.or_eq_true, decide_eq_true_eq]
          exact le_total b.1 a.1)
        scored
      exact hs.imp of_decide_eq_true
    have hxtw : (score m, m) ∈
        sorted.takeWhile (fun y => decide (y.1 = f64MAX)) :=
      mem_takeWhile_of_pairwise_top f64MAX sorted hpw hball _ hxs hxtop
    have hlentw :
        (sorted.takeWhile (fun y => decide (y.1 = f64MAX))).length ≤
          max_in_memory := by
      have hall : ∀ a ∈ sorted.takeWhile (fun y => decide (y.1 = f64MAX)),
          (fun (y : ℚ × EpisodicMemory) => decide (y.1 = f64MAX)) a =
            true :=
        fun a ha =>
          @List.mem_takeWhile_imp (ℚ × EpisodicMemory)
            (fun y => decide (y.1 = f64MAX)) sorted a ha
      have e1 : (sorted.takeWhile
          (fun y => decide (y.1 = f64MAX))).length =
          (sorted.takeWhile (fun y => decide (y.1 = f64MAX))).countP
            (fun y => decide (y.1 = f64MAX)) :=
        (List.countP_eq_length.mpr hall).symm
      rw [e1]
      calc (sorted.takeWhile (fun y => decide (y.1 = f64MAX))).countP
            (fun y => decide (y.1 = f64MAX)) ≤
          sorted.countP (fun y => decide (y.1 = f64MAX)) :=
            (List.takeWhile_sublist _).countP_le _
        _ = scored.countP (fun y => decide (y.1 = f64MAX)) :=
            hperm.countP_eq _
        _ = retained0.countP (fun mm => decide (score mm = f64MAX)) :=
            List.countP_map _ _ _
        _ = retained0.countP (fun mm => protectedB mm config) := by
            apply List.countP_congr
            intro mm _
            simp only [decide_eq_true_eq]
            constructor
            · intro hEq
              by_contra hp
              obtain ⟨h1, h2, h3⟩ := hwf mm (List.mem_filter.mp ‹mm ∈ retained0›).1
              have := eviction_score_unprotected_le_two mm config
                (current_tick - mm.last_accessed)
                (Bool.of_not_eq_true hp) h1 h2 h3
              rw [hsc] at hEq
              simp only at hEq
              rw [hEq] at this
              linarith [two_lt_f64MAX]
            · intro hp
              exact eviction_score_protected mm config _ hp
        _ ≤ memories.countP (fun mm => protectedB mm config) :=
            (List.filter_sublist _).countP_le _
        _ ≤ max_in_memory := hcount
    have hfin : (score m, m) ∈ sorted.take max_in_memory :=
      mem_take_of_mem_takeWhile _ sorted max_in_memory hlentw _ hxtw
    exact List.mem_map_of_mem Prod.snd hfin
  · rw [if_neg hlen]
    exact hm0

/-- Witness for the amended C1 at a concrete input: three Hot memories
with capacity 2 force a spill, and the single protected memory is
retained. -/
theorem evict_protected_hot_warm_witness :
    (⟨1, "p", [], Location.default, 0, 0, 0.5, 0.05, 1, 0, 0, true,
      none⟩ : EpisodicMemory) ∈
      (evict_episodic_memories
        [⟨1, "p", [], Location.default, 0, 0, 0.5, 0.05, 1, 0, 0, true,
          none⟩,
         ⟨2, "a", [], Location.default, 0, 0, 0.3, 0.05, 1, 0, 0, false,
          none⟩,
         ⟨3, "b", [], Location.default, 0, 0, 0.4, 0.05, 1, 0, 0, false,
          none⟩] 0 1 2 EvictionConfig.default).retained :=
  evict_protected_hot_warm_retained
    [⟨1, "p", [], Location.default, 0, 0, 0.5, 0.05, 1, 0, 0, true,
      none⟩,
     ⟨2, "a", [], Location.default, 0, 0, 0.3, 0.05, 1, 0, 0, false,
      none⟩,
     ⟨3, "b", [], Location.default, 0, 0, 0.4, 0.05, 1, 0, 0, false,
      none⟩] 0 1 2 EvictionConfig.default
    (by
      intro mm hmm
      rcases List.mem_cons.mp hmm with rfl | hmm
      · norm_num
      rcases List.mem_cons.mp hmm with rfl | hmm
      · norm_num
      rcases List.mem_cons.mp hmm with rfl | hmm
      · norm_num
      exact absurd hmm (List.not_mem_nil mm))
    (by
      simp only [List.countP_cons, List.countP_nil, protectedB,
        EvictionConfig.default]
      norm_num)
    _ (List.mem_cons_self _ _)
    (by simp [protectedB, EvictionConfig.default]) rfl

end Memz
